import Mathlib

/-!
Verification of the claude2 unofficial API client (`src/api.rs`, `src/utils.rs`).

The development shallowly embeds the pure content of the client: strings are
`List Char`, byte buffers are `List Nat` (each entry `< 256`), fallible Rust
code returns an explicit outcome type that distinguishes a returned error from
a panic, and the network is abstracted as the byte response handed back by the
request dispatcher.
-/

namespace CApi

/-- Unicode white-space test matching Rust `char::is_whitespace` (the Unicode
`White_Space` property); `str::trim` in `send_message` strips exactly these
characters. -/
def charIsWhitespace (c : Char) : Bool :=
  c.toNat = 0x20 || c.toNat = 0x09 || c.toNat = 0x0A || c.toNat = 0x0B ||
  c.toNat = 0x0C || c.toNat = 0x0D || c.toNat = 0x85 || c.toNat = 0xA0 ||
  c.toNat = 0x1680 || (0x2000 ≤ c.toNat && c.toNat ≤ 0x200A) ||
  c.toNat = 0x2028 || c.toNat = 0x2029 || c.toNat = 0x202F ||
  c.toNat = 0x205F || c.toNat = 0x3000

/-- Rust `str::trim`: remove the leading and trailing white-space characters. -/
def trimChars (s : List Char) : List Char :=
  ((s.dropWhile charIsWhitespace).reverse.dropWhile charIsWhitespace).reverse

/-- Rust `str::split("\n")` collected into a list.  Splitting the empty string
yields one empty item, so the result is never the empty list. -/
def splitNewline : List Char → List (List Char)
  | [] => [[]]
  | c :: rest =>
    if c = '\n' then [] :: splitNewline rest
    else
      match splitNewline rest with
      | [] => [[c]]
      | l :: ls => (c :: l) :: ls

/-- Number of bytes of the UTF-8 encoding of one scalar value. -/
def charUtf8Size (c : Char) : Nat :=
  if c.toNat < 0x80 then 1
  else if c.toNat < 0x800 then 2
  else if c.toNat < 0x10000 then 3
  else 4

/-- UTF-8 encoding of one scalar value. -/
def charUtf8Bytes (c : Char) : List Nat :=
  let n := c.toNat
  if n < 0x80 then [n]
  else if n < 0x800 then [0xC0 + n / 64, 0x80 + n % 64]
  else if n < 0x10000 then
    [0xE0 + n / 4096, 0x80 + (n / 64) % 64, 0x80 + n % 64]
  else
    [0xF0 + n / 0x40000, 0x80 + (n / 4096) % 64, 0x80 + (n / 64) % 64,
     0x80 + n % 64]

/-- UTF-8 encoding of a string. -/
def utf8Encode (s : List Char) : List Nat :=
  (s.map charUtf8Bytes).flatten

/-- Total UTF-8 byte length of a string. -/
def utf8Len (s : List Char) : Nat :=
  (s.map charUtf8Size).sum

/-- Continuation-byte test (`0x80 ≤ b < 0xC0`). -/
def isCont (b : Nat) : Bool :=
  0x80 ≤ b && b < 0xC0

/-- Strict UTF-8 decoding of a byte sequence, matching Rust
`std::str::from_utf8`: overlong encodings, surrogate code points, values above
`0x10FFFF` and truncated sequences are all rejected (`none`). -/
def utf8Decode : List Nat → Option (List Char)
  | [] => some []
  | b :: rest =>
    if b < 0x80 then
      (utf8Decode rest).map (fun cs => Char.ofNat b :: cs)
    else if b < 0xC2 then none
    else if b < 0xE0 then
      match rest with
      | b1 :: rest1 =>
        if isCont b1 then
          (utf8Decode rest1).map
            (fun cs => Char.ofNat ((b - 0xC0) * 64 + (b1 - 0x80)) :: cs)
        else none
      | [] => none
    else if b < 0xF0 then
      match rest with
      | b1 :: b2 :: rest2 =>
        if isCont b1 && isCont b2 then
          let cp := (b - 0xE0) * 4096 + (b1 - 0x80) * 64 + (b2 - 0x80)
          if cp < 0x800 then none
          else if 0xD800 ≤ cp && cp < 0xE000 then none
          else (utf8Decode rest2).map (fun cs => Char.ofNat cp :: cs)
        else none
      | _ => none
    else if b < 0xF5 then
      match rest with
      | b1 :: b2 :: b3 :: rest3 =>
        if isCont b1 && isCont b2 && isCont b3 then
          let cp := (b - 0xF0) * 0x40000 + (b1 - 0x80) * 4096 +
            (b2 - 0x80) * 64 + (b3 - 0x80)
          if cp < 0x10000 then none
          else if 0x110000 ≤ cp then none
          else (utf8Decode rest3).map (fun cs => Char.ofNat cp :: cs)
        else none
      | _ => none
    else none

/-- Does byte offset `n` land on a character boundary of the UTF-8 encoding of
the string?  This is the test Rust's slice operation `&s[n..]` performs; when
it is false the slice panics. -/
def byteBoundary : Nat → List Char → Bool
  | 0, _ => true
  | _ + 1, [] => false
  | n + 1, c :: rest =>
    if charUtf8Size c ≤ n + 1 then byteBoundary (n + 1 - charUtf8Size c) rest
    else false

/-- Rust `&s[n..]`: drop the first `n` BYTES of the UTF-8 encoding of the
string.  Returns `none` exactly when the slice would panic, i.e. when `n` is
past the end of the string or falls inside a multi-byte character. -/
def dropUtf8Bytes : Nat → List Char → Option (List Char)
  | 0, s => some s
  | _ + 1, [] => none
  | n + 1, c :: rest =>
    if charUtf8Size c ≤ n + 1 then dropUtf8Bytes (n + 1 - charUtf8Size c) rest
    else none

/-- JSON values, modelling `serde_json::Value`.  Numbers are modelled as
integers, the only number shape the client's payloads use. -/
inductive Json where
  | null
  | bool (b : Bool)
  | num (n : Int)
  | str (s : List Char)
  | arr (xs : List Json)
  | obj (fields : List (List Char × Json))

/-- JSON insignificant white-space (the four characters serde_json skips). -/
def jsonWs (c : Char) : Bool :=
  c = ' ' || c = '\t' || c = '\n' || c = '\r'

/-- Skip insignificant white-space. -/
def skipWs (s : List Char) : List Char :=
  s.dropWhile jsonWs

/-- Single-character JSON string escapes.  Modelling note: the `\u` escape is
rejected rather than decoded; none of the client's payloads use it. -/
def escChar (c : Char) : Option Char :=
  if c = '"' then some '"'
  else if c = '\\' then some '\\'
  else if c = '/' then some '/'
  else if c = 'b' then some (Char.ofNat 8)
  else if c = 'f' then some (Char.ofNat 12)
  else if c = 'n' then some '\n'
  else if c = 'r' then some '\r'
  else if c = 't' then some '\t'
  else none

/-- Parse the body of a JSON string after the opening quote; returns the
decoded content and the remainder after the closing quote. -/
def parseStringBody : List Char → Option (List Char × List Char)
  | [] => none
  | c :: rest =>
    if c = '"' then some ([], rest)
    else if c = '\\' then
      match rest with
      | e :: rest2 =>
        match escChar e with
        | some ec => (parseStringBody rest2).map (fun p => (ec :: p.1, p.2))
        | none => none
      | [] => none
    else if c.toNat < 0x20 then none
    else (parseStringBody rest).map (fun p => (c :: p.1, p.2))

/-- ASCII digit test. -/
def isDigit (c : Char) : Bool :=
  '0' ≤ c && c ≤ '9'

/-- Take the maximal ASCII-digit run at the front of the input. -/
def takeDigits : List Char → (List Char × List Char)
  | [] => ([], [])
  | c :: rest =>
    if isDigit c then
      let p := takeDigits rest
      (c :: p.1, p.2)
    else ([], c :: rest)

/-- Value of an ASCII-digit run. -/
def digitsToNat (ds : List Char) : Nat :=
  ds.foldl (fun acc c => acc * 10 + (c.toNat - 48)) 0

/-- Parse a JSON number.  Modelling note: serde_json also accepts fraction and
exponent parts; this model covers the integer grammar (optional minus, no
leading zeros), the only number shape the client's payloads use, and rejects a
fraction or exponent rather than misparsing it. -/
def parseNumber (s : List Char) : Option (Json × List Char) :=
  let np : Bool × List Char :=
    match s with
    | '-' :: rest => (true, rest)
    | _ => (false, s)
  match takeDigits np.2 with
  | ([], _) => none
  | (d :: ds, rest) =>
    if (d :: ds).length > 1 && d = '0' then none
    else
      match rest with
      | c :: _ =>
        if c = '.' || c = 'e' || c = 'E' then none
        else some
          (Json.num (if np.1 then -(digitsToNat (d :: ds) : Int)
            else (digitsToNat (d :: ds) : Int)), rest)
      | [] => some
          (Json.num (if np.1 then -(digitsToNat (d :: ds) : Int)
            else (digitsToNat (d :: ds) : Int)), rest)

mutual

/-- Parse one JSON value (fuel-indexed recursive-descent, modelling
serde_json); returns the value and the unconsumed remainder. -/
def parseValue : Nat → List Char → Option (Json × List Char)
  | 0, _ => none
  | fuel + 1, s =>
    match skipWs s with
    | [] => none
    | c :: rest =>
      if c = 'n' then
        match rest with
        | 'u' :: 'l' :: 'l' :: r => some (Json.null, r)
        | _ => none
      else if c = 't' then
        match rest with
        | 'r' :: 'u' :: 'e' :: r => some (Json.bool true, r)
        | _ => none
      else if c = 'f' then
        match rest with
        | 'a' :: 'l' :: 's' :: 'e' :: r => some (Json.bool false, r)
        | _ => none
      else if c = '"' then
        (parseStringBody rest).map (fun p => (Json.str p.1, p.2))
      else if c = '[' then
        match skipWs rest with
        | ']' :: r => some (Json.arr [], r)
        | r2 => (parseElems fuel r2).map (fun p => (Json.arr p.1, p.2))
      else if c = '\x7b' then
        match skipWs rest with
        | '\x7d' :: r => some (Json.obj [], r)
        | r2 => (parseMembers fuel r2).map (fun p => (Json.obj p.1, p.2))
      else if c = '-' || isDigit c then
        parseNumber (c :: rest)
      else none

/-- Parse the elements of a non-empty JSON array up to the closing bracket. -/
def parseElems : Nat → List Char → Option (List Json × List Char)
  | 0, _ => none
  | fuel + 1, s =>
    match parseValue fuel s with
    | none => none
    | some (j, r) =>
      match skipWs r with
      | ',' :: r2 => (parseElems fuel r2).map (fun p => (j :: p.1, p.2))
      | ']' :: r2 => some ([j], r2)
      | _ => none

/-- Parse the members of a non-empty JSON object up to the closing brace. -/
def parseMembers : Nat → List Char → Option (List (List Char × Json) × List Char)
  | 0, _ => none
  | fuel + 1, s =>
    match skipWs s with
    | '"' :: r =>
      match parseStringBody r with
      | none => none
      | some (key, r1) =>
        match skipWs r1 with
        | ':' :: r2 =>
          match parseValue fuel r2 with
          | none => none
          | some (v, r3) =>
            match skipWs r3 with
            | ',' :: r4 =>
              (parseMembers fuel r4).map (fun p => ((key, v) :: p.1, p.2))
            | '\x7d' :: r4 => some ([(key, v)], r4)
            | _ => none
        | _ => none
    | _ => none

end

/-- serde_json `from_str` / `from_slice` top level: parse one JSON value and
require that only white-space follows it. -/
def parseJson (s : List Char) : Option Json :=
  match parseValue (s.length + 1) s with
  | some (j, rest) => if skipWs rest = [] then some j else none
  | none => none

/-- Association-list field lookup (first match). -/
def lookupKey (fields : List (List Char × Json)) (key : List Char) : Option Json :=
  match fields with
  | [] => none
  | (k, v) :: rest => if k = key then some v else lookupKey rest key

/-- serde_json `Value::get` with a string key: field lookup on objects, `none`
on every other value shape. -/
def jsonGet (j : Json) (key : List Char) : Option Json :=
  match j with
  | Json.obj fields => lookupKey fields key
  | _ => none

/-- serde_json `value.as_str().unwrap_or(default)`: the string content when
the value is a string, the default otherwise. -/
def jsonAsStrOr (j : Json) (d : List Char) : List Char :=
  match j with
  | Json.str s => s
  | _ => d

/-- Outcome of a piece of Rust code that can return a value, return an error
(`anyhow::Result::Err`), or panic. -/
inductive RustOutcome (α : Type) where
  | panics
  | error
  | ok (val : α)

/-- Stream-reply decode of `send_message` (`src/api.rs` lines 268-281), applied
to the response body bytes handed back by the dispatcher:

* `std::str::from_utf8(&bytes).unwrap()` — panics on invalid UTF-8;
* `s.trim().split("\n").last().ok_or(...)` — the split iterator always yields
  at least one item, so the `ok_or` error branch is kept but unreachable;
* `&data[6..]` — drops the first 6 BYTES, panicking when the line is shorter
  or offset 6 splits a multi-byte character;
* `serde_json::from_str(data)` — a parse failure is returned as an error. -/
def sendMessageDecode (bytes : List Nat) : RustOutcome Json :=
  match utf8Decode bytes with
  | none => .panics
  | some s =>
    match (splitNewline (trimChars s)).getLast? with
    | none => .error
    | some line =>
      match dropUtf8Bytes 6 line with
      | none => .panics
      | some rest =>
        match parseJson rest with
        | none => .error
        | some j => .ok j

/-- Last newline-separated line of the trimmed body, with an empty-string
default that is never used (the split is never empty). -/
def lastTrimmedLine (s : List Char) : List Char :=
  (splitNewline (trimChars s)).getLastD []

/-- Decoder exactly as the claim's words describe it, FOR COMPARISON with
`sendMessageDecode` only: take the last newline-separated line of the trimmed
body, strip the first 6 CHARACTERS of that line, and parse the remainder as
JSON.  The source strips the first 6 bytes instead. -/
def specCharDecode (s : List Char) : Option Json :=
  parseJson ((lastTrimmedLine s).drop 6)

/-- `get_organization_id` (`src/api.rs` lines 85-93), applied to the response
body bytes:

* `serde_json::from_slice` — a parse (or UTF-8) failure is returned as an
  error;
* `.as_array().ok_or(...)` — a non-array value is returned as an error;
* `[0]` — `Vec` indexing, which PANICS when the array is empty;
* `.get("uuid")` — a missing field (or non-object first element) is returned
  as an error via the final `ok_or`;
* `.as_str().unwrap_or("")` — a non-string `uuid` value yields the empty
  string. -/
def getOrganizationId (content : List Nat) : RustOutcome (List Char) :=
  match utf8Decode content with
  | none => .error
  | some s =>
    match parseJson s with
    | none => .error
    | some j =>
      match j with
      | Json.arr [] => .panics
      | Json.arr (x :: _) =>
        match jsonGet x "uuid".data with
        | some v => .ok (jsonAsStrOr v [])
        | none => .error
      | _ => .error

/-- Header maps, modelled as association lists in insertion order. -/
abbrev HeaderMap : Type :=
  List (List Char × List Char)

/-- `reqwest::header::HeaderMap::insert`: replace the value of an existing
key, or append the pair. -/
def hmInsert (m : HeaderMap) (k v : List Char) : HeaderMap :=
  if (m.map Prod.fst).contains k then
    m.map (fun p => if p.1 = k then (k, v) else p)
  else m ++ [(k, v)]

/-- First value stored for a key. -/
def hmLookup (m : HeaderMap) (k : List Char) : Option (List Char) :=
  match m with
  | [] => none
  | (k1, v) :: rest => if k1 = k then some v else hmLookup rest k

/-- Validity of a header value under `HeaderValue::from_str` (reached through
`cookie.parse()` in `try_new`): every byte must be horizontal tab or satisfy
`32 ≤ b` and `b ≠ 127`; on the character level this is the test below, since
every byte of a multi-byte character is at least `0x80`. -/
def headerValueValid (s : List Char) : Bool :=
  s.all (fun c => c.toNat = 9 || (32 ≤ c.toNat && c.toNat ≠ 127))

/-- User-Agent header value fixed by `try_new`. -/
def userAgentValue : List Char :=
  ("Mozilla/5.0 (Macintosh; Intel Mac OS X 10_15_7) AppleWebKit/537.36 " ++
   "(KHTML, like Gecko) Chrome/115.0.0.0 Safari/537.36 Edg/115.0.1901.183").data

/-- Base header map composed by `try_new`, in source insertion order. -/
def baseHeaders (cookie : List Char) : HeaderMap :=
  [("host".data, "claude.ai".data),
   ("cookie".data, cookie),
   ("referer".data, "https://claude.ai/chats".data),
   ("content-type".data, "application/json".data),
   ("accept".data, "*/*".data),
   ("user-agent".data, userAgentValue),
   ("accept-language".data, "en-US,en;q=0.9,zh-CN;q=0.8,zh;q=0.7,en-GB;q=0.6".data)]

/-- Drop a literal from the front of the input; `none` when it is not there. -/
def dropLit : List Char → List Char → Option (List Char)
  | [], s => some s
  | _ :: _, [] => none
  | l :: ls, c :: cs => if c = l then dropLit ls cs else none

/-- Modelled from `reqwest::Proxy::all` as the source comment documents it
("supported proxies(by reqwest): http, https, socks5"): a proxy URI is
accepted when its scheme is one of `http`, `https`, `socks5` and a non-empty
host part follows; otherwise the entry is rejected (the caller skips it with a
warning).  An accepted proxy is represented by its URI string. -/
def proxyAll (p : List Char) : Option (List Char) :=
  match dropLit "http://".data p with
  | some r => if r = [] then none else some p
  | none =>
    match dropLit "https://".data p with
    | some r => if r = [] then none else some p
    | none =>
      match dropLit "socks5://".data p with
      | some r => if r = [] then none else some p
      | none => none

/-- Proxy-validation loop of `try_new`: keep the accepted entries in order,
skip the rejected ones. -/
def filterProxies (proxys : List (List Char)) : List (List Char) :=
  proxys.filterMap proxyAll

/-- The `Client` struct of `src/api.rs` (the spec's Session): accepted proxies
are represented by their URI strings. -/
structure Client where
  cookie : List Char
  proxys : List (List Char)
  organization_id : List Char
  base_header : HeaderMap

/-- `Client::try_new`, with the network abstracted: `orgResponse` is the byte
body the dispatcher returns for the GET of `/api/organizations`.  The cookie
is parsed into a header value first (an invalid cookie is an error), the proxy
list is filtered, and the organization id is resolved; any failure aborts
construction. -/
def tryNew (cookie : List Char) (proxys : List (List Char))
    (orgResponse : List Nat) : RustOutcome Client :=
  if headerValueValid cookie then
    match getOrganizationId orgResponse with
    | .panics => .panics
    | .error => .error
    | .ok orgId =>
      .ok ⟨cookie, filterProxies proxys, orgId, baseHeaders cookie⟩
  else .error

/-- `Client::reset_proxy` (`&mut self`): clears the proxy list. -/
def resetProxy (c : Client) : Client :=
  { c with proxys := [] }

/-- `Client::proxy` (`&mut self`): validates one proxy string and appends it
when accepted; a rejected string leaves the client unchanged. -/
def addProxy (c : Client) (p : List Char) : Client :=
  match proxyAll p with
  | some q => { c with proxys := c.proxys ++ [q] }
  | none => c

/-- Result of one HTTP exchange as seen by `utils::request`: either a
transport-level failure (DNS, connect, proxy, timeout, TLS, body read), or a
fully received response carrying a status code and the body bytes. -/
inductive TransportResult where
  | transportErr
  | response (status : Nat) (body : List Nat)

/-- `utils::request` (`src/utils.rs` lines 15-47) after the send: the source
runs `req.send().await?.bytes().await` and returns the bytes; no code path
inspects the response status, so the body is returned for every status
value. -/
def request (r : TransportResult) : Option (List Nat) :=
  match r with
  | .transportErr => none
  | .response _ body => some body

/-- Lower-case hex digits. -/
def hexDigit (n : Nat) : Char :=
  "0123456789abcdef".data.getD n '0'

/-- Two-digit lower-case hex rendering of a byte. -/
def byteHex (b : Nat) : List Char :=
  [hexDigit (b / 16), hexDigit (b % 16)]

/-- Position-indexed body of the version/variant masking. -/
def uuidMaskAux : Nat → List Nat → List Nat
  | _, [] => []
  | i, b :: rest =>
    (if i = 6 then b % 16 + 64 else if i = 8 then b % 64 + 128 else b) ::
      uuidMaskAux (i + 1) rest

/-- Version/variant masking of `uuid::Uuid::new_v4` over the 16 random bytes:
byte 6 becomes `(b & 0x0F) | 0x40`, byte 8 becomes `(b & 0x3F) | 0x80`. -/
def uuidMask (r : List Nat) : List Nat :=
  uuidMaskAux 0 r

/-- Hyphenation of the 32-character hex string into the 8-4-4-4-12 form. -/
def uuidHyphenate (h : List Char) : List Char :=
  h.take 8 ++ '-' :: ((h.drop 8).take 4) ++ '-' :: ((h.drop 12).take 4) ++
    '-' :: ((h.drop 16).take 4) ++ '-' :: (h.drop 20)

/-- `uuid::Uuid::new_v4().to_string()` as a function of the 16 random bytes
the generator draws: mask the version/variant bits, render as lower-case hex,
hyphenate. -/
def uuidV4FromBytes (r : List Nat) : List Char :=
  uuidHyphenate ((uuidMask r).map byteHex).flatten

/-- Request built by `create_chat_conversation`: URL, headers and the JSON
body `{"uuid": id, "name": "test"}` (the source serializes this value with
`to_string`; the model keeps the value). -/
structure CreateRequest where
  url : List Char
  headers : HeaderMap
  body : Json

/-- Request description of `create_chat_conversation` for a client and the 16
random bytes drawn for the fresh identifier. -/
def createChatConversationRequest (c : Client) (r : List Nat) : CreateRequest :=
  { url := "https://claude.ai/api/organizations/".data ++ c.organization_id ++
      "/chat_conversations".data
  , headers := c.base_header
  , body := Json.obj [("uuid".data, Json.str (uuidV4FromBytes r)),
      ("name".data, Json.str "test".data)] }

/-- `create_chat_conversation` outcome: on any dispatcher success (whatever
the status or body) the generated identifier is returned; a transport failure
is collapsed into the operation's error. -/
def createChatConversation (_c : Client) (r : List Nat)
    (t : TransportResult) : Option (List Char) :=
  match request t with
  | some _ => some (uuidV4FromBytes r)
  | none => none

/-- File part of the multipart form built by `upload_attachment`: the opened
path is streamed, while the part's file name and MIME type are fixed. -/
structure FilePart where
  sourcePath : List Char
  partFileName : List Char
  mime : List Char

/-- Multipart form of `upload_attachment`: one text field and one file part. -/
structure MultipartForm where
  textFields : List (List Char × List Char)
  filePart : FilePart

/-- Request dispatched by `upload_attachment` once the file is open. -/
structure UploadRequest where
  url : List Char
  headers : HeaderMap
  form : MultipartForm

/-- Header map built (and then never used) by `upload_attachment` at
`src/api.rs` lines 212-214: the base headers with `content-type` replaced by
`multipart/form-data`. -/
def uploadUnusedHeaders (c : Client) : HeaderMap :=
  hmInsert c.base_header "content-type".data "multipart/form-data".data

/-- Request description of `upload_attachment` (`src/api.rs` lines 198-228)
for an input path whose file opened successfully: the form's file part is
named `demo.pdf` with MIME type `application/pdf` independently of the path,
and the dispatched headers are `self.base_header.clone()` — not the
`multipart/form-data` map built just above the call. -/
def uploadAttachmentRequest (c : Client) (filename : List Char) : UploadRequest :=
  { url := "https://claude.ai/api/convert_document".data
  , headers := c.base_header
  , form :=
    { textFields := [("orgUuid".data, c.organization_id)]
    , filePart :=
      { sourcePath := filename
      , partFileName := "demo.pdf".data
      , mime := "application/pdf".data } } }

/-- Lower-case hexadecimal digit test. -/
def isLowerHexDigit (c : Char) : Bool :=
  ('0' ≤ c && c ≤ '9') || ('a' ≤ c && c ≤ 'f')

/-- Is the outcome a returned value (neither an error nor a panic)? -/
def outcomeOk {α : Type} : RustOutcome α → Bool
  | .ok _ => true
  | .error => false
  | .panics => false

/-!  Theorems.  General lemmas about the embedded operations come first, the
claim theorems follow. -/

theorem splitNewline_ne_nil (s : List Char) : splitNewline s ≠ [] := by
  induction s with
  | nil => simp [splitNewline]
  | cons c rest ih =>
    simp only [splitNewline]
    split
    · simp
    · cases h : splitNewline rest <;> simp

theorem dropUtf8Bytes_eq_none_iff (n : Nat) (s : List Char) :
    dropUtf8Bytes n s = none ↔ byteBoundary n s = false := by
  induction s generalizing n with
  | nil =>
    cases n <;> simp [dropUtf8Bytes, byteBoundary]
  | cons c rest ih =>
    cases n with
    | zero => simp [dropUtf8Bytes, byteBoundary]
    | succ m =>
      simp only [dropUtf8Bytes, byteBoundary]
      split
      · exact ih _
      · simp

theorem byteBoundary_false_of_len_lt (n : Nat) (s : List Char)
    (h : utf8Len s < n) : byteBoundary n s = false := by
  induction s generalizing n with
  | nil =>
    cases n with
    | zero => omega
    | succ m => simp [byteBoundary]
  | cons c rest ih =>
    cases n with
    | zero => omega
    | succ m =>
      simp only [byteBoundary]
      split
      · apply ih
        simp only [utf8Len, List.map_cons, List.sum_cons] at h
        simp only [utf8Len]
        omega
      · rfl

theorem getLast?_eq_some_getLastD {α : Type} (l : List α) (d : α)
    (h : l ≠ []) : l.getLast? = some (l.getLastD d) := by
  induction l with
  | nil => exact absurd rfl h
  | cons a l ih =>
    cases l with
    | nil => rfl
    | cons b m =>
      rw [List.getLast?_cons_cons, List.getLastD_cons]
      exact ih (by simp)

/-- C1 counterexample: on the single-line body `ééXY{"a":1}` the code's
decoder (which strips the first 6 BYTES of the line, here the four characters
`ééXY`) returns the JSON value `{"a":1}`, while the algorithm the claim
describes (strip the first 6 CHARACTERS, then parse the remainder) is left
with `a":1}` and yields no JSON value at all. -/
theorem c1_counterexample :
    sendMessageDecode (utf8Encode "ééXY\x7b\"a\":1\x7d".data) =
      RustOutcome.ok (Json.obj [("a".data, Json.num 1)]) ∧
    specCharDecode "ééXY\x7b\"a\":1\x7d".data = none :=
  ⟨rfl, rfl⟩

/-- C1 (amended): for every response body that is valid UTF-8, the stream
decoder of sendMessage takes the last newline-separated line of the trimmed
body (an input with no newline is treated as the single last line), strips
the first 6 BYTES of that line (panicking when the strip is impossible), and
parses the remainder as JSON; in particular, on input
`event: x\ndata1\ndata2\nPREFIX{"a":1}` it returns the JSON value `{"a":1}`,
and likewise on the corresponding input with no newline. -/
theorem c1_amended_decode :
    (∀ bytes s, utf8Decode bytes = some s →
      sendMessageDecode bytes =
        (match dropUtf8Bytes 6 (lastTrimmedLine s) with
          | none => RustOutcome.panics
          | some rest =>
            match parseJson rest with
            | none => RustOutcome.error
            | some j => RustOutcome.ok j)) ∧
    sendMessageDecode
        (utf8Encode "event: x\ndata1\ndata2\nPREFIX\x7b\"a\":1\x7d".data) =
      RustOutcome.ok (Json.obj [("a".data, Json.num 1)]) ∧
    sendMessageDecode (utf8Encode "PREFIX\x7b\"a\":1\x7d".data) =
      RustOutcome.ok (Json.obj [("a".data, Json.num 1)]) := by
  refine ⟨?_, rfl, rfl⟩
  intro bytes s h
  unfold sendMessageDecode
  simp only [h, getLast?_eq_some_getLastD _ [] (splitNewline_ne_nil (trimChars s)),
    lastTrimmedLine]

/-- C1 amended claim, witness: the universally quantified part evaluated on a
concrete two-line body. -/
theorem c1_amended_witness :
    sendMessageDecode (utf8Encode "A\nPREFIXnull".data) =
      (match dropUtf8Bytes 6 (lastTrimmedLine "A\nPREFIXnull".data) with
        | none => RustOutcome.panics
        | some rest =>
          match parseJson rest with
          | none => RustOutcome.error
          | some j => RustOutcome.ok j) :=
  c1_amended_decode.1 _ "A\nPREFIXnull".data rfl

/-- C2 (code bug): on the empty response body the decode PANICS (the dead
`ok_or` never fires because `split` always yields an item, and the 6-byte
slice of the empty last line is out of bounds) instead of failing with a
FormatError; the same happens on any body whose last trimmed line is shorter
than 6 bytes; only the JSON-parse failure after a successful strip is a
returned error, as the claim says. -/
theorem c2_empty_body_panics :
    sendMessageDecode [] = RustOutcome.panics ∧
    sendMessageDecode (utf8Encode "abc".data) = RustOutcome.panics ∧
    sendMessageDecode (utf8Encode "PREFIXnotjson".data) = RustOutcome.error :=
  ⟨rfl, rfl, rfl⟩

/-- C3 (code bug): on the organization-listing response `[]` the construction
PANICS (Vec index 0 out of bounds) instead of failing with a ConstructError;
a non-array response and a first element without `uuid` are returned errors,
and a present string `uuid` is returned, as the claim says. -/
theorem c3_empty_array_panics :
    getOrganizationId (utf8Encode "[]".data) = RustOutcome.panics ∧
    getOrganizationId (utf8Encode "[\x7b\"uuid\":\"abc\"\x7d]".data) =
      RustOutcome.ok "abc".data ∧
    getOrganizationId (utf8Encode "[\x7b\x7d]".data) = RustOutcome.error ∧
    getOrganizationId (utf8Encode "\x7b\x7d".data) = RustOutcome.error :=
  ⟨rfl, rfl, rfl, rfl⟩

/-- C5 counterexample: `reset_proxy` is an exposed Session operation that
mutates the proxy-list field of the Session. -/
theorem c5_counterexample :
    (resetProxy ⟨"c".data, ["http://a".data], "o".data, []⟩).proxys ≠
      (Client.mk "c".data ["http://a".data] "o".data []).proxys := by
  decide

/-- C5 (amended): the conversation and message operations take the Session by
shared reference and mutate nothing, and no operation mutates the cookie, the
organization identifier or the base headers; but the proxy-reconfiguration
methods `reset_proxy` and `proxy` (which take the Session by exclusive
reference) do mutate the proxy list: the first clears it, the second appends
the entry when it validates and leaves the list unchanged otherwise. -/
theorem c5_amended_mutation :
    (∀ c : Client, (resetProxy c).cookie = c.cookie ∧
      (resetProxy c).organization_id = c.organization_id ∧
      (resetProxy c).base_header = c.base_header ∧
      (resetProxy c).proxys = []) ∧
    (∀ (c : Client) (p : List Char), (addProxy c p).cookie = c.cookie ∧
      (addProxy c p).organization_id = c.organization_id ∧
      (addProxy c p).base_header = c.base_header ∧
      (addProxy c p).proxys = c.proxys ++ (proxyAll p).toList) := by
  constructor
  · intro c
    exact ⟨rfl, rfl, rfl, rfl⟩
  · intro c p
    unfold addProxy
    cases proxyAll p <;> simp

/-- C5 amended claim, witness at a concrete Session value. -/
theorem c5_amended_witness :
    (resetProxy (Client.mk "c".data ["http://a".data] "o".data [])).proxys = [] :=
  (c5_amended_mutation.1 (Client.mk "c".data ["http://a".data] "o".data [])).2.2.2

/-- C7: the request dispatcher returns the complete response body bytes for
every fully received response, whatever the status code: no status value
produces an error or changes the returned bytes (the source never inspects
the status; only a transport-level failure is an error). -/
theorem c7_dispatcher_status_blind :
    (∀ (status : Nat) (body : List Nat),
      request (TransportResult.response status body) = some body) ∧
    (∀ (s1 s2 : Nat) (body : List Nat),
      request (TransportResult.response s1 body) =
        request (TransportResult.response s2 body)) :=
  ⟨fun _ _ => rfl, fun _ _ _ => rfl⟩

/-- C7 witness: a 500-status response still yields its body bytes. -/
theorem c7_witness :
    request (TransportResult.response 500 [1, 2, 3]) = some [1, 2, 3] :=
  c7_dispatcher_status_blind.1 500 [1, 2, 3]

/-- C9: the stream decode of sendMessage is not total: a response body that
is not valid UTF-8 panics (the `unwrap`), and a valid body whose last trimmed
line is shorter than 6 bytes, or whose byte offset 6 falls inside a
multi-byte character, panics at the slice `&data[6..]` instead of returning
an error result. -/
theorem c9_decode_panics :
    (∀ bytes, utf8Decode bytes = none →
      sendMessageDecode bytes = RustOutcome.panics) ∧
    (∀ bytes s, utf8Decode bytes = some s →
      (utf8Len (lastTrimmedLine s) < 6 ∨
        (6 ≤ utf8Len (lastTrimmedLine s) ∧
          byteBoundary 6 (lastTrimmedLine s) = false)) →
      sendMessageDecode bytes = RustOutcome.panics) := by
  constructor
  · intro bytes h
    unfold sendMessageDecode
    rw [h]
  · intro bytes s h hline
    have hb : byteBoundary 6 (lastTrimmedLine s) = false := by
      rcases hline with h1 | ⟨_, h2⟩
      · exact byteBoundary_false_of_len_lt _ _ h1
      · exact h2
    have hd : dropUtf8Bytes 6 (lastTrimmedLine s) = none :=
      (dropUtf8Bytes_eq_none_iff _ _).mpr hb
    unfold sendMessageDecode
    simp only [lastTrimmedLine] at hd
    simp only [h, getLast?_eq_some_getLastD _ [] (splitNewline_ne_nil (trimChars s)), hd]

theorem tryNew_ok_inv (cookie : List Char) (ps : List (List Char))
    (resp : List Nat) (c : Client)
    (h : tryNew cookie ps resp = RustOutcome.ok c) :
    headerValueValid cookie = true ∧
    getOrganizationId resp = RustOutcome.ok c.organization_id ∧
    c = ⟨cookie, filterProxies ps, c.organization_id, baseHeaders cookie⟩ := by
  unfold tryNew at h
  split at h
  case isTrue hv =>
    cases hg : getOrganizationId resp <;> rw [hg] at h
    case panics => cases h
    case error => cases h
    case ok orgId =>
      injection h with h2
      subst h2
      exact ⟨hv, rfl, rfl⟩
  case isFalse => cases h

theorem getOrganizationId_ok_inv (resp : List Nat) (orgId : List Char)
    (h : getOrganizationId resp = RustOutcome.ok orgId) :
    ∃ s x rest v, utf8Decode resp = some s ∧
      parseJson s = some (Json.arr (x :: rest)) ∧
      jsonGet x "uuid".data = some v ∧
      orgId = jsonAsStrOr v [] := by
  unfold getOrganizationId at h
  cases hd : utf8Decode resp with
  | none => rw [hd] at h; cases h
  | some s =>
    rw [hd] at h
    change (match parseJson s with
      | none => RustOutcome.error
      | some j =>
        match j with
        | Json.arr [] => RustOutcome.panics
        | Json.arr (x :: _) =>
          (match jsonGet x "uuid".data with
            | some v => RustOutcome.ok (jsonAsStrOr v [])
            | none => RustOutcome.error)
        | _ => RustOutcome.error) = RustOutcome.ok orgId at h
    cases hp : parseJson s with
    | none => rw [hp] at h; cases h
    | some j =>
      rw [hp] at h
      match j, hp with
      | Json.arr [], hp => cases h
      | Json.arr (x :: rest), hp =>
        change (match jsonGet x "uuid".data with
          | some v => RustOutcome.ok (jsonAsStrOr v [])
          | none => RustOutcome.error) = RustOutcome.ok orgId at h
        cases hgv : jsonGet x "uuid".data with
        | none => rw [hgv] at h; cases h
        | some v =>
          rw [hgv] at h
          injection h with h2
          exact ⟨s, x, rest, v, rfl, hp, hgv, h2.symm⟩
      | Json.null, hp => cases h
      | Json.bool b, hp => cases h
      | Json.num n, hp => cases h
      | Json.str t, hp => cases h
      | Json.obj fs, hp => cases h

/-- C4 counterexample: on the organization-listing response
`[{"uuid":""}]` the construction SUCCEEDS (the code maps the `uuid` value
through `as_str().unwrap_or("")`), and the resulting Session's organization
identifier is the EMPTY string. -/
theorem c4_counterexample :
    tryNew "c".data [] (utf8Encode "[\x7b\"uuid\":\"\"\x7d]".data) =
      RustOutcome.ok ⟨"c".data, [], [], baseHeaders "c".data⟩ ∧
    (Client.mk "c".data [] [] (baseHeaders "c".data)).organization_id.length = 0 :=
  ⟨rfl, rfl⟩

/-- C4 (amended): for every organization-listing response on which Session
construction succeeds, the organization identifier is the `uuid` field of the
first array element rendered as a string — its string content when the field
holds a string, and the EMPTY string otherwise; it is not necessarily
non-empty. -/
theorem c4_amended_org_id :
    ∀ cookie ps resp c, tryNew cookie ps resp = RustOutcome.ok c →
      getOrganizationId resp = RustOutcome.ok c.organization_id ∧
      ∃ s x rest v, utf8Decode resp = some s ∧
        parseJson s = some (Json.arr (x :: rest)) ∧
        jsonGet x "uuid".data = some v ∧
        c.organization_id = jsonAsStrOr v [] := by
  intro cookie ps resp c h
  have hg := (tryNew_ok_inv cookie ps resp c h).2.1
  exact ⟨hg, getOrganizationId_ok_inv resp c.organization_id hg⟩

/-- C4 amended claim, witness: a successful construction from the response
`[{"uuid":"abc"}]`. -/
theorem c4_amended_witness :
    getOrganizationId (utf8Encode "[\x7b\"uuid\":\"abc\"\x7d]".data) =
      RustOutcome.ok "abc".data ∧
    ∃ s x rest v,
      utf8Decode (utf8Encode "[\x7b\"uuid\":\"abc\"\x7d]".data) = some s ∧
      parseJson s = some (Json.arr (x :: rest)) ∧
      jsonGet x "uuid".data = some v ∧
      ("abc".data : List Char) = jsonAsStrOr v [] :=
  c4_amended_org_id "c".data []
    (utf8Encode "[\x7b\"uuid\":\"abc\"\x7d]".data)
    ⟨"c".data, [], "abc".data, baseHeaders "c".data⟩ rfl

theorem proxyAll_eq_some (p q : List Char) (h : proxyAll p = some q) :
    q = p := by
  unfold proxyAll at h
  split at h
  · split at h
    · cases h
    · injection h with h2
      exact h2.symm
  · split at h
    · split at h
      · cases h
      · injection h with h2
        exact h2.symm
    · split at h
      · split at h
        · cases h
        · injection h with h2
          exact h2.symm
      · cases h

theorem filterProxies_eq_filter (ps : List (List Char)) :
    filterProxies ps = ps.filter (fun p => (proxyAll p).isSome) := by
  induction ps with
  | nil => rfl
  | cons p ps ih =>
    simp only [filterProxies, List.filterMap_cons, List.filter_cons] at *
    cases h : proxyAll p with
    | none => simpa [h] using ih
    | some q =>
      have hq := proxyAll_eq_some p q h
      subst hq
      simpa [h] using ih

/-- C6: for every input proxy-string list, Session construction retains
exactly the entries accepted by the proxy validation (the supported schemes),
in order, in the Session's proxy list; and whether construction succeeds does
not depend on the proxy list at all, so unsupported entries never make it
fail. -/
theorem c6_proxy_filtering :
    (∀ cookie ps resp c, tryNew cookie ps resp = RustOutcome.ok c →
      c.proxys = ps.filter (fun p => (proxyAll p).isSome)) ∧
    (∀ cookie ps1 ps2 resp,
      outcomeOk (tryNew cookie ps1 resp) =
        outcomeOk (tryNew cookie ps2 resp)) := by
  constructor
  · intro cookie ps resp c h
    have hc := (tryNew_ok_inv cookie ps resp c h).2.2
    rw [hc]
    exact filterProxies_eq_filter ps
  · intro cookie ps1 ps2 resp
    unfold tryNew
    split
    · cases getOrganizationId resp <;> rfl
    · rfl

/-- C6 witness: a mixed list with an unsupported `ftp` entry in the middle:
construction succeeds and keeps exactly the `http` and `socks5` entries in
order. -/
theorem c6_witness :
    (Client.mk "c".data ["http://a".data, "socks5://d".data] "abc".data
        (baseHeaders "c".data)).proxys =
      ["http://a".data, "ftp://b".data, "socks5://d".data].filter
        (fun p => (proxyAll p).isSome) ∧
    outcomeOk (tryNew "c".data
        ["http://a".data, "ftp://b".data, "socks5://d".data]
        (utf8Encode "[\x7b\"uuid\":\"abc\"\x7d]".data)) =
      outcomeOk (tryNew "c".data []
        (utf8Encode "[\x7b\"uuid\":\"abc\"\x7d]".data)) :=
  ⟨c6_proxy_filtering.1 "c".data
      ["http://a".data, "ftp://b".data, "socks5://d".data]
      (utf8Encode "[\x7b\"uuid\":\"abc\"\x7d]".data)
      ⟨"c".data, ["http://a".data, "socks5://d".data], "abc".data,
        baseHeaders "c".data⟩ rfl,
   c6_proxy_filtering.2 "c".data
      ["http://a".data, "ftp://b".data, "socks5://d".data] []
      (utf8Encode "[\x7b\"uuid\":\"abc\"\x7d]".data)⟩

/-- C9 witness: the three panic classes evaluated on concrete bodies: an
invalid UTF-8 byte, a 3-byte last line, and a last line whose byte offset 6
splits the second `é`. -/
theorem c9_witness :
    sendMessageDecode [0xC0] = RustOutcome.panics ∧
    sendMessageDecode (utf8Encode "abc".data) = RustOutcome.panics ∧
    sendMessageDecode (utf8Encode "x\nAééé".data) = RustOutcome.panics :=
  ⟨c9_decode_panics.1 [0xC0] rfl,
   c9_decode_panics.2 _ "abc".data rfl (Or.inl (by decide)),
   c9_decode_panics.2 _ "x\nAééé".data rfl (Or.inr ⟨by decide, by decide⟩)⟩

/-- C10: for every input file path, the request dispatched by
`upload_attachment` carries a multipart form whose file part is named
`demo.pdf` with MIME type `application/pdf` independently of the path, and its
header map is the unmodified base header map; for every Session produced by
construction, the `multipart/form-data` header map built inside
`upload_attachment` differs from the dispatched one, so it is never passed to
the dispatcher. -/
theorem c10_upload_fixed_part :
    (∀ (c : Client) (fn : List Char),
      (uploadAttachmentRequest c fn).form.filePart.partFileName =
        "demo.pdf".data ∧
      (uploadAttachmentRequest c fn).form.filePart.mime =
        "application/pdf".data ∧
      (uploadAttachmentRequest c fn).headers = c.base_header) ∧
    (∀ cookie ps resp c fn, tryNew cookie ps resp = RustOutcome.ok c →
      (uploadAttachmentRequest c fn).headers ≠ uploadUnusedHeaders c) := by
  constructor
  · intro c fn
    exact ⟨rfl, rfl, rfl⟩
  · intro cookie ps resp c fn h hcontra
    have hc := (tryNew_ok_inv cookie ps resp c h).2.2
    rw [hc] at hcontra
    have hl : hmLookup (baseHeaders cookie) "content-type".data =
        hmLookup (uploadUnusedHeaders
          ⟨cookie, filterProxies ps, c.organization_id, baseHeaders cookie⟩)
          "content-type".data := by
      exact congrArg (fun m => hmLookup m "content-type".data) hcontra
    have hr : hmLookup (baseHeaders cookie) "content-type".data =
        some "application/json".data := rfl
    have hm : hmLookup (uploadUnusedHeaders
        ⟨cookie, filterProxies ps, c.organization_id, baseHeaders cookie⟩)
        "content-type".data = some "multipart/form-data".data := rfl
    rw [hr, hm] at hl
    exact absurd hl (by decide)

/-- C10 witness: the fixed file part and the dispatched headers on a Session
constructed from a concrete organization response. -/
theorem c10_witness :
    (uploadAttachmentRequest
        (Client.mk "c".data [] "abc".data (baseHeaders "c".data))
        "notes.txt".data).form.filePart.partFileName = "demo.pdf".data ∧
    (uploadAttachmentRequest
        (Client.mk "c".data [] "abc".data (baseHeaders "c".data))
        "notes.txt".data).headers ≠
      uploadUnusedHeaders
        (Client.mk "c".data [] "abc".data (baseHeaders "c".data)) :=
  ⟨(c10_upload_fixed_part.1
      (Client.mk "c".data [] "abc".data (baseHeaders "c".data))
      "notes.txt".data).1,
   c10_upload_fixed_part.2 "c".data []
      (utf8Encode "[\x7b\"uuid\":\"abc\"\x7d]".data)
      (Client.mk "c".data [] "abc".data (baseHeaders "c".data))
      "notes.txt".data rfl⟩

theorem hexDigit_lowerHex (n : Nat) : isLowerHexDigit (hexDigit n) = true := by
  by_cases h : n < 16
  · have hall : ∀ m < 16, isLowerHexDigit (hexDigit m) = true := by decide
    exact hall n h
  · unfold hexDigit
    rw [List.getD_eq_default]
    · decide
    · simp only [not_lt] at h
      simpa using h

theorem hexDigit_ne_hyphen (n : Nat) : hexDigit n ≠ '-' := by
  intro hc
  have hl := hexDigit_lowerHex n
  rw [hc] at hl
  exact absurd hl (by decide)

theorem hexDigit_inj : ∀ a < 16, ∀ b < 16, hexDigit a = hexDigit b → a = b := by
  decide

theorem byteHex_inj (a b : Nat) (ha : a < 256) (hb : b < 256)
    (h : byteHex a = byteHex b) : a = b := by
  simp only [byteHex, List.cons.injEq, and_true] at h
  obtain ⟨h1, h2⟩ := h
  have e1 : a / 16 = b / 16 := hexDigit_inj _ (by omega) _ (by omega) h1
  have e2 : a % 16 = b % 16 := hexDigit_inj _ (by omega) _ (by omega) h2
  omega

theorem uuidMaskAux_lt (i : Nat) (r : List Nat) (h : ∀ b ∈ r, b < 256) :
    ∀ b ∈ uuidMaskAux i r, b < 256 := by
  induction r generalizing i with
  | nil => intro b hb; cases hb
  | cons a t ih =>
    intro b hb
    simp only [uuidMaskAux, List.mem_cons] at hb
    rcases hb with hb | hb
    · subst hb
      have ha : a < 256 := h a (by simp)
      split
      · omega
      · split
        · omega
        · exact ha
    · exact ih (i + 1) (fun x hx => h x (by simp [hx])) b hb

theorem uuidMaskAux_length (i : Nat) (r : List Nat) :
    (uuidMaskAux i r).length = r.length := by
  induction r generalizing i with
  | nil => rfl
  | cons a t ih => simp [uuidMaskAux, ih]

theorem hexify_len (l : List Nat) :
    ((l.map byteHex).flatten).length = 2 * l.length := by
  induction l with
  | nil => rfl
  | cons a t ih =>
    have hb : (byteHex a).length = 2 := rfl
    simp only [List.map_cons, List.flatten_cons, List.length_append, hb, ih,
      List.length_cons]
    omega

theorem hexify_mem (l : List Nat) :
    ∀ c ∈ (l.map byteHex).flatten, isLowerHexDigit c = true := by
  induction l with
  | nil => intro c hc; cases hc
  | cons a t ih =>
    intro c hc
    rw [List.map_cons, List.flatten_cons] at hc
    rcases List.mem_append.mp hc with hc | hc
    · simp only [byteHex, List.mem_cons, List.not_mem_nil, or_false] at hc
      rcases hc with hc | hc
      · subst hc; exact hexDigit_lowerHex _
      · subst hc; exact hexDigit_lowerHex _
    · exact ih c hc

theorem hexify_ne_hyphen (l : List Nat) :
    ∀ c ∈ (l.map byteHex).flatten, ¬(c = '-') := by
  intro c hc hcontra
  have := hexify_mem l c hc
  rw [hcontra] at this
  exact absurd this (by decide)

theorem hexify_inj (l1 l2 : List Nat) (h1 : ∀ b ∈ l1, b < 256)
    (h2 : ∀ b ∈ l2, b < 256)
    (h : (l1.map byteHex).flatten = (l2.map byteHex).flatten) : l1 = l2 := by
  induction l1 generalizing l2 with
  | nil =>
    cases l2 with
    | nil => rfl
    | cons b t => simp [byteHex] at h
  | cons a t1 ih =>
    cases l2 with
    | nil => simp [byteHex] at h
    | cons b t2 =>
      simp only [List.map_cons, List.flatten_cons, byteHex,
        List.cons_append, List.nil_append, List.cons.injEq] at h
      obtain ⟨e1, e2, etail⟩ := h
      have hab : a = b := by
        have ea : a / 16 = b / 16 :=
          hexDigit_inj _ (by have := h1 a (by simp); omega) _
            (by have := h2 b (by simp); omega) e1
        have eb : a % 16 = b % 16 :=
          hexDigit_inj _ (by omega) _ (by omega) e2
        omega
      have ht : t1 = t2 :=
        ih t2 (fun x hx => h1 x (by simp [hx]))
          (fun x hx => h2 x (by simp [hx])) etail
      rw [hab, ht]

theorem take_drop_recompose (h : List Char) :
    h.take 8 ++ ((h.drop 8).take 4 ++ ((h.drop 12).take 4 ++
      ((h.drop 16).take 4 ++ h.drop 20))) = h := by
  have e20 : (h.drop 16).take 4 ++ h.drop 20 = h.drop 16 := by
    have e : h.drop 20 = (h.drop 16).drop 4 := by
      rw [List.drop_drop]
    rw [e, List.take_append_drop]
  have e16 : (h.drop 12).take 4 ++ h.drop 16 = h.drop 12 := by
    have e : h.drop 16 = (h.drop 12).drop 4 := by
      rw [List.drop_drop]
    rw [e, List.take_append_drop]
  have e12 : (h.drop 8).take 4 ++ h.drop 12 = h.drop 8 := by
    have e : h.drop 12 = (h.drop 8).drop 4 := by
      rw [List.drop_drop]
    rw [e, List.take_append_drop]
  rw [e20, e16, e12, List.take_append_drop]

theorem filter_uuidHyphenate (h : List Char) :
    (uuidHyphenate h).filter (fun c => !(c = '-')) =
      h.filter (fun c => !(c = '-')) := by
  conv_rhs => rw [← take_drop_recompose h]
  simp [uuidHyphenate, List.filter_append]

theorem uuidHyphenate_inj (h1 h2 : List Char)
    (hh1 : ∀ c ∈ h1, ¬(c = '-')) (hh2 : ∀ c ∈ h2, ¬(c = '-'))
    (h : uuidHyphenate h1 = uuidHyphenate h2) : h1 = h2 := by
  have hf := congrArg (List.filter (fun c => !(c = '-'))) h
  rw [filter_uuidHyphenate, filter_uuidHyphenate] at hf
  rwa [List.filter_eq_self.mpr (fun a ha => by simpa using hh1 a ha),
    List.filter_eq_self.mpr (fun a ha => by simpa using hh2 a ha)] at hf

theorem uuidHyphenate_length (h : List Char) :
    (uuidHyphenate h).length = h.length + 4 := by
  simp only [uuidHyphenate, List.length_append, List.length_cons,
    List.length_take, List.length_drop]
  omega

/-- C8 counterexample: two calls of createConversation whose RNG draws are the
DIFFERENT byte sequences below (they differ at byte 6, whose high nibble the
version masking overwrites) return the IDENTICAL identifier, so identifiers
returned by repeated calls are not always distinct. -/
theorem c8_counterexample :
    (List.replicate 6 (0 : Nat) ++ 16 :: List.replicate 9 0).length = 16 ∧
    List.replicate 16 (0 : Nat) ≠
      List.replicate 6 0 ++ 16 :: List.replicate 9 0 ∧
    uuidV4FromBytes (List.replicate 16 0) =
      uuidV4FromBytes (List.replicate 6 0 ++ 16 :: List.replicate 9 0) :=
  ⟨rfl, by decide, rfl⟩

/-- C8 (amended): createConversation generates a fresh identifier from 16
random bytes, formatted as a standard 36-character UUID string (five
lower-case hex groups of lengths 8-4-4-4-12 separated by hyphens); it POSTs a
body whose `uuid` field is that identifier and whose `name` field is the
fixed default name `test`; on any non-transport success it returns exactly
the generated identifier; and identifiers returned by repeated calls are
distinct whenever the random bytes of the two calls differ at any bit not
overwritten by the version/variant masking. -/
theorem c8_amended_uuid :
    (∀ r : List Nat, r.length = 16 →
      (uuidV4FromBytes r).length = 36 ∧
      ∃ g1 g2 g3 g4 g5, uuidV4FromBytes r =
          g1 ++ '-' :: g2 ++ '-' :: g3 ++ '-' :: g4 ++ '-' :: g5 ∧
        g1.length = 8 ∧ g2.length = 4 ∧ g3.length = 4 ∧ g4.length = 4 ∧
        g5.length = 12 ∧
        (g1 ++ g2 ++ g3 ++ g4 ++ g5).all isLowerHexDigit = true) ∧
    (∀ (c : Client) (r : List Nat),
      jsonGet (createChatConversationRequest c r).body "uuid".data =
        some (Json.str (uuidV4FromBytes r)) ∧
      jsonGet (createChatConversationRequest c r).body "name".data =
        some (Json.str "test".data)) ∧
    (∀ (c : Client) (r : List Nat) (status : Nat) (body : List Nat),
      createChatConversation c r (TransportResult.response status body) =
        some (uuidV4FromBytes r)) ∧
    (∀ r1 r2 : List Nat, (∀ b ∈ r1, b < 256) → (∀ b ∈ r2, b < 256) →
      uuidMask r1 ≠ uuidMask r2 →
      uuidV4FromBytes r1 ≠ uuidV4FromBytes r2) := by
  refine ⟨?_, fun c r => ⟨rfl, rfl⟩, fun c r status body => rfl, ?_⟩
  · intro r hr
    have hlen : (((uuidMask r).map byteHex).flatten).length = 32 := by
      rw [hexify_len, uuidMask, uuidMaskAux_length, hr]
    have hmem := hexify_mem (uuidMask r)
    constructor
    · show (uuidHyphenate (((uuidMask r).map byteHex).flatten)).length = 36
      rw [uuidHyphenate_length, hlen]
    · refine ⟨(((uuidMask r).map byteHex).flatten).take 8,
        ((((uuidMask r).map byteHex).flatten).drop 8).take 4,
        ((((uuidMask r).map byteHex).flatten).drop 12).take 4,
        ((((uuidMask r).map byteHex).flatten).drop 16).take 4,
        (((uuidMask r).map byteHex).flatten).drop 20,
        rfl, ?_, ?_, ?_, ?_, ?_, ?_⟩
      · simp [List.length_take, hlen]
      · simp [List.length_take, List.length_drop, hlen]
      · simp [List.length_take, List.length_drop, hlen]
      · simp [List.length_take, List.length_drop, hlen]
      · simp [List.length_drop, hlen]
      · rw [List.append_assoc, List.append_assoc, List.append_assoc,
          take_drop_recompose]
        exact List.all_eq_true.mpr hmem
  · intro r1 r2 hb1 hb2 hmask heq
    apply hmask
    have hx : ((uuidMask r1).map byteHex).flatten =
        ((uuidMask r2).map byteHex).flatten :=
      uuidHyphenate_inj _ _ (hexify_ne_hyphen (uuidMask r1))
        (hexify_ne_hyphen (uuidMask r2)) heq
    exact hexify_inj _ _ (uuidMaskAux_lt 0 r1 hb1) (uuidMaskAux_lt 0 r2 hb2) hx

/-- C8 amended claim, witness: the format, request body, returned identifier
and distinctness evaluated on concrete random draws. -/
theorem c8_witness :
    (uuidV4FromBytes (List.replicate 16 0)).length = 36 ∧
    jsonGet (createChatConversationRequest
        (Client.mk "c".data [] "abc".data (baseHeaders "c".data))
        (List.replicate 16 0)).body "uuid".data =
      some (Json.str (uuidV4FromBytes (List.replicate 16 0))) ∧
    createChatConversation
        (Client.mk "c".data [] "abc".data (baseHeaders "c".data))
        (List.replicate 16 0) (TransportResult.response 200 []) =
      some (uuidV4FromBytes (List.replicate 16 0)) ∧
    uuidV4FromBytes (List.replicate 16 0) ≠
      uuidV4FromBytes (List.replicate 15 0 ++ [7]) :=
  ⟨(c8_amended_uuid.1 (List.replicate 16 0) rfl).1,
   (c8_amended_uuid.2.1
      (Client.mk "c".data [] "abc".data (baseHeaders "c".data))
      (List.replicate 16 0)).1,
   c8_amended_uuid.2.2.1
      (Client.mk "c".data [] "abc".data (baseHeaders "c".data))
      (List.replicate 16 0) 200 [],
   c8_amended_uuid.2.2.2 (List.replicate 16 0) (List.replicate 15 0 ++ [7])
      (by decide) (by decide) (by decide)⟩

end CApi
